import Mathlib

/-!
Shallow embedding of the data pipeline of the dashboard repository
(`src/pages/app.py`, revenue mode, and `src/pages/04_semi.py`, price mode).

Floating-point cells are modelled as rationals; a pandas `NaN` cell is
`none`.  A pandas `Series` is a list of (time, cell) entries in source
order; a pandas `DataFrame` (wide table) is an index together with one
named list of cells per column, every column aligned positionally with
the index.
-/

namespace Yongin

/-- One cell of a table: a numeric value or `NaN` (missing). -/
abbrev Cell : Type := Option ℚ

/-- A time-indexed pandas `Series`: (time, cell) entries in source order. -/
abbrev Series (τ : Type) : Type := List (τ × Cell)

/-- A wide pandas `DataFrame`: a time index plus named columns, each column
positionally aligned with the index. -/
structure Wide (τ : Type) where
  index : List τ
  cols : List (String × List Cell)
deriving DecidableEq

/-- `x.dropna()` for one column: the present values in order. -/
def dropna (col : List Cell) : List ℚ :=
  col.filterMap id

/-- `x.dropna().iloc[0] if not x.dropna().empty else np.nan`
(`app.py` line 135): the first present value of a column, `NaN` if none. -/
def validStart (col : List Cell) : Cell :=
  (dropna col).head?

/-- `.replace(0, 1)` applied to one column's start value (`app.py` line 136). -/
def replaceZero (c : Cell) : Cell :=
  c.map (fun v => if v = 0 then 1 else v)

/-- `(df / valid_start_values.replace(0, 1)) * 100` on one column
(`app.py` line 136).  When the start value is `NaN` the whole output column
is `NaN` (division by `NaN`); `NaN` cells stay `NaN`. -/
def normalizeCol (col : List Cell) : List Cell :=
  match replaceZero (validStart col) with
  | none => col.map (fun _ => none)
  | some b => col.map (Option.map (fun v => v / b * 100))

/-- `normalized_df` (`app.py` lines 134-136), column by column. -/
def normalized_df {τ : Type} (t : Wide τ) : Wide τ :=
  { index := t.index
    cols := t.cols.map (fun c => (c.1, normalizeCol c.2)) }

/-- `df_display = df_filtered / 1_000_000_000` (`app.py` line 130): every
cell divided by 10^9, `NaN` cells staying `NaN`. -/
def df_display {τ : Type} (t : Wide τ) : Wide τ :=
  { index := t.index
    cols := t.cols.map (fun c => (c.1, c.2.map (Option.map (fun v => v / 1000000000)))) }

/-- Index of the first present cell of a column, if any. -/
def firstValidIdx : List Cell → Option ℕ
  | [] => none
  | none :: xs => (firstValidIdx xs).map (· + 1)
  | some _ :: _ => some 0

/-- `normalized_df.reset_index().melt(id_vars='index', var_name='Stock',
value_name='Normalized_Revenue')` followed by the rename of `index` to
`Year` (`app.py` lines 142-147): one long-form row (time, column name,
cell) per (row, column) position of the wide table, column block after
column block; pandas `melt` keeps `NaN` cells as rows. -/
def df_long {τ : Type} (t : Wide τ) : List (τ × String × Cell) :=
  t.cols.flatMap (fun c => (t.index.zip c.2).map (fun p => (p.1, c.1, p.2)))

/-! ### Warnings (the `st.warning` / `st.error` messages of the fetch code) -/

/-- One user-facing diagnostic.  `noData` is the missing-field message
(`app.py` line 47) and the empty-download message (`04_semi.py` line 36);
`shapeMismatch` is the empty-or-not-a-Series message (`app.py` line 45);
`fetchError` is the caught per-instrument exception (`app.py` line 50,
`04_semi.py` line 38); `structuralError` is the caught merge `ValueError`
(`app.py` lines 63-64). -/
inductive Warning where
  | noData (name : String)
  | shapeMismatch (name : String)
  | fetchError (name msg : String)
  | structuralError (msg : String)
deriving DecidableEq

/-- The instrument a warning is about (`none` for batch-level warnings). -/
def Warning.instrument : Warning → Option String
  | .noData n => some n
  | .shapeMismatch n => some n
  | .fetchError n _ => some n
  | .structuralError _ => none

/-! ### Fiscal dates (revenue mode)

`yfinance` financial statements are indexed by full fiscal dates; the code
later projects them to years with `.index.year` (`app.py` line 58).  A
date is a year plus an ordinal within the year, ordered lexicographically. -/

structure FDate where
  y : ℤ
  o : ℤ
deriving DecidableEq

def FDate.key (d : FDate) : Lex (ℤ × ℤ) := toLex (d.y, d.o)

instance : LinearOrder FDate :=
  LinearOrder.lift' FDate.key (fun a b h => by
    cases a; cases b
    simpa [FDate.key, toLex_inj, Prod.ext_iff] using h)

/-- `.index.year` on one date. -/
def FDate.year (d : FDate) : ℤ := d.y

/-! ### Shared merge: `pd.DataFrame(data)` on a dict of collected series -/

def idxOf {τ : Type} (s : Series τ) : List τ := s.map (fun p => p.1)

/-- Whether every collected series carries the same index; when so, the
`DataFrame` constructor keeps that index verbatim (no realignment). -/
def allIdxEq {τ : Type} [DecidableEq τ] : List (String × Series τ) → Bool
  | [] => true
  | r :: rest => rest.all (fun q => decide (idxOf q.2 = idxOf r.2))

def headIdx {τ : Type} : List (String × Series τ) → List τ
  | [] => []
  | r :: _ => idxOf r.2

/-- Outer-join index: union of all series indexes, deduplicated, sorted. -/
def sortedUnion {τ : Type} [LinearOrder τ] (data : List (String × Series τ)) : List τ :=
  List.insertionSort (· ≤ ·) (data.flatMap (fun r => idxOf r.2)).dedup

/-- Value of a series at one time: the first entry carrying that time,
`NaN` when the time is absent from the series. -/
def lookup {τ : Type} [DecidableEq τ] (s : Series τ) (t : τ) : Cell :=
  match s.find? (fun p => decide (p.1 = t)) with
  | some p => p.2
  | none => none

def reindexErrMsg : String := "ValueError: cannot reindex on an axis with duplicate labels"

/-- `pd.DataFrame(data)` on a dict of series (`app.py` line 55,
`04_semi.py` line 42).  Identical indexes are kept verbatim; otherwise
every series is reindexed to the sorted union of the indexes, which raises
a `ValueError` when a series' own index has duplicate labels. -/
def mergeSeries {τ : Type} [LinearOrder τ] (data : List (String × Series τ)) :
    Except String (Wide τ) :=
  if allIdxEq data then
    Except.ok { index := headIdx data
                cols := data.map (fun r => (r.1, r.2.map (fun p => p.2))) }
  else if data.any (fun r => !(decide (idxOf r.2).Nodup)) then
    Except.error reindexErrMsg
  else
    Except.ok { index := sortedUnion data
                cols := data.map (fun r => (r.1, (sortedUnion data).map (lookup r.2))) }

/-! ### Price mode (`src/pages/04_semi.py`) -/

/-- What `df['Close']` can hold once stored into `data`: a true
one-dimensional series, or a multi-column frame (`yfinance` can return
multi-level columns; `load_data` stores `df['Close']` without checking its
shape, `04_semi.py` line 34). -/
inductive CloseVal (τ : Type) where
  | series (s : Series τ)
  | frame (f : List (Series τ))
deriving DecidableEq

/-- A downloaded frame, as far as `load_data` inspects it: its emptiness
and its `Close` column (`none` when the column is absent, so that
subscripting it raises `KeyError`). -/
structure PriceDF (τ : Type) where
  isEmpty : Bool
  close : Option (CloseVal τ)

/-- One `yf.download` call: a raised transport error, or a frame. -/
inductive PriceFetch (τ : Type) where
  | raiseErr (msg : String)
  | frame (df : PriceDF τ)

def keyErrorMsg : String := "KeyError: Close"

/-- The fetch loop of `load_data` (`04_semi.py` lines 27-38): per
instrument, a download failure or an empty result yields a warning and
exclusion; otherwise the `Close` column is stored under the instrument's
display name.  Returns the collected columns and the warnings, each in
loop order. -/
def load_data_loop {τ : Type} (src : String → PriceFetch τ) :
    List (String × String) → List (String × CloseVal τ) × List Warning
  | [] => ([], [])
  | p :: rest =>
    let r := load_data_loop src rest
    match src p.2 with
    | .raiseErr e => (r.1, .fetchError p.1 e :: r.2)
    | .frame df =>
      if df.isEmpty then (r.1, .noData p.1 :: r.2)
      else
        match df.close with
        | none => (r.1, .fetchError p.1 keyErrorMsg :: r.2)
        | some cv => ((p.1, cv) :: r.1, r.2)

def isFrame {τ : Type} : CloseVal τ → Bool
  | .frame _ => true
  | .series _ => false

def asSeries {τ : Type} : CloseVal τ → Series τ
  | .series s => s
  | .frame _ => []

def valueErrorFrameMsg : String := "ValueError: data value is not a 1-dimensional series"

/-- `pd.DataFrame(data)` in price mode (`04_semi.py` line 42): raises when
some stored value is not a true series, otherwise merges. -/
def mergeClose {τ : Type} [LinearOrder τ] (data : List (String × CloseVal τ)) :
    Except String (Wide τ) :=
  if data.any (fun q => isFrame q.2) then Except.error valueErrorFrameMsg
  else mergeSeries (data.map (fun q => (q.1, asSeries q.2)))

/-- `load_data` (`04_semi.py` lines 25-43): the fetch loop, then — when
anything was collected — the unguarded merge, whose exception propagates.
The warnings have already been displayed when the merge runs, so they are
returned alongside the merge outcome. -/
def load_data {τ : Type} [LinearOrder τ] (src : String → PriceFetch τ)
    (instruments : List (String × String)) : List Warning × Except String (Wide τ) :=
  let r := load_data_loop src instruments
  if r.1.isEmpty then (r.2, Except.ok { index := [], cols := [] })
  else (r.2, mergeClose r.1)

/-! ### Revenue mode (`src/pages/app.py`) -/

/-- An annual financial-statement response: its date columns and its named
rows (field name, one cell per date column). -/
structure FinTable where
  dates : List FDate
  rows : List (String × List Cell)
deriving DecidableEq

/-- One `yf.Ticker(t).financials` access: a raised transport error, or a
financial-statement table. -/
inductive RevFetch where
  | raiseErr (msg : String)
  | fin (ft : FinTable)

def totalRevenueKey : String := "Total Revenue"

/-- The fetch loop of `load_revenue_data` (`app.py` lines 29-50): per
instrument, a raised error yields a `fetchError` warning; a response
without a `Total Revenue` row yields the missing-field warning (line 47);
`loc` on several matching rows yields a frame, not a `Series`, and an
extraction without date columns is empty — both rejected by the
`isinstance`-and-nonempty check (lines 42-45); otherwise the extracted
series is stored under the display name. -/
def load_revenue_loop (src : String → RevFetch) :
    List (String × String) → List (String × Series FDate) × List Warning
  | [] => ([], [])
  | p :: rest =>
    let r := load_revenue_loop src rest
    match src p.2 with
    | .raiseErr e => (r.1, .fetchError p.1 e :: r.2)
    | .fin ft =>
      if ft.rows.any (fun row => decide (row.1 = totalRevenueKey)) then
        match (ft.rows.filter (fun row => decide (row.1 = totalRevenueKey))).map
            (fun row => row.2) with
        | [vals] =>
          if ft.dates.isEmpty then (r.1, .shapeMismatch p.1 :: r.2)
          else ((p.1, ft.dates.zip vals) :: r.1, r.2)
        | _ => (r.1, .shapeMismatch p.1 :: r.2)
      else (r.1, .noData p.1 :: r.2)

/-- A stable sorting permutation of the positions of `keys`
(`df.sort_index()` reorders rows by index, keeping ties in place). -/
def sortPerm (keys : List ℤ) : List ℕ :=
  List.insertionSort (fun a b => keys.getD a 0 ≤ keys.getD b 0) (List.range keys.length)

/-- `df.index = df.index.year` followed by `df.sort_index()`
(`app.py` lines 58-61): project every date to its year, then stably sort
the rows by year, carrying every column along. -/
def yearize (t : Wide FDate) : Wide ℤ :=
  { index := (sortPerm (t.index.map FDate.year)).map
      (fun i => (t.index.map FDate.year).getD i 0)
    cols := t.cols.map (fun c =>
      (c.1, (sortPerm (t.index.map FDate.year)).map (fun i => c.2.getD i none))) }

/-- `load_revenue_data` (`app.py` lines 25-67): the fetch loop, then — when
anything was collected — the merge guarded by `except ValueError`, which
degrades to an empty frame plus the structural-error message; a successful
merge is projected to years and sorted. -/
def load_revenue_data (src : String → RevFetch)
    (instruments : List (String × String)) : List Warning × Wide ℤ :=
  let r := load_revenue_loop src instruments
  if r.1.isEmpty then (r.2, { index := [], cols := [] })
  else
    match mergeSeries r.1 with
    | .ok t => (r.2, yearize t)
    | .error e => (r.2 ++ [.structuralError e], { index := [], cols := [] })

/-- The success case of one price-mode fetch: the stored `Close` value when
the download neither raised nor was empty nor lacked the column. -/
def okClose {τ : Type} : PriceFetch τ → Option (CloseVal τ)
  | .raiseErr _ => none
  | .frame df => if df.isEmpty then none else df.close

/-- The success case of one revenue-mode fetch: the extracted
`Total Revenue` series when the response passes every check of the loop. -/
def okRev : RevFetch → Option (Series FDate)
  | .raiseErr _ => none
  | .fin ft =>
    if ft.rows.any (fun row => decide (row.1 = totalRevenueKey)) then
      match (ft.rows.filter (fun row => decide (row.1 = totalRevenueKey))).map
          (fun row => row.2) with
      | [vals] => if ft.dates.isEmpty then none else some (ft.dates.zip vals)
      | _ => none
    else none

/-! ### Basic facts about the normalization step -/

lemma validStart_eq_of_firstValidIdx :
    ∀ (col : List Cell) (i : ℕ) (v : ℚ), firstValidIdx col = some i →
      col[i]? = some (some v) → validStart col = some v := by
  intro col
  induction col with
  | nil => intro i v h _; simp [firstValidIdx] at h
  | cons c rest ih =>
    intro i v h hget
    cases c with
    | none =>
      simp only [firstValidIdx, Option.map_eq_some'] at h
      obtain ⟨j, hj, rfl⟩ := h
      have hg : rest[j]? = some (some v) := by simpa using hget
      have := ih j v hj hg
      simpa [validStart, dropna] using this
    | some a =>
      simp only [firstValidIdx, Option.some.injEq] at h
      subst h
      simp only [List.getElem?_cons_zero, Option.some.injEq] at hget
      simp [validStart, dropna, hget]

lemma validStart_eq_none_iff (col : List Cell) :
    validStart col = none ↔ ∀ c ∈ col, c = none := by
  simp [validStart, dropna, List.head?_eq_none_iff, List.filterMap_eq_nil_iff, Option.isNone_iff_eq_none]

/-- C1: for every column of the normalized table whose first present
observation sits at row `i` and is a non-zero value `v`, the normalized
column appears in `normalized_df`'s output and its cell at row `i` is
exactly 100. -/
theorem baseline_cell_is_100 {τ : Type} (t : Wide τ) (name : String)
    (col : List Cell) (i : ℕ) (v : ℚ)
    (hmem : (name, col) ∈ t.cols) (hidx : firstValidIdx col = some i)
    (hget : col[i]? = some (some v)) (hnz : v ≠ 0) :
    (name, normalizeCol col) ∈ (normalized_df t).cols ∧
      (normalizeCol col)[i]? = some (some 100) := by
  constructor
  · exact List.mem_map.2 ⟨(name, col), hmem, rfl⟩
  · have hvs : validStart col = some v := validStart_eq_of_firstValidIdx col i v hidx hget
    have hn : normalizeCol col = col.map (Option.map (fun x => x / v * 100)) := by
      simp [normalizeCol, hvs, replaceZero, hnz]
    rw [hn, List.getElem?_map, hget]
    simp [div_self hnz]

def tableC1 : Wide ℤ := { index := [1, 2], cols := [("X", [some 5, some 10])] }

/-- Witness for C1 at a concrete table whose column starts at 5. -/
theorem baseline_cell_is_100_witness :
    ("X", normalizeCol [some 5, some 10]) ∈ (normalized_df tableC1).cols ∧
      (normalizeCol [some 5, some 10])[0]? = some (some 100) :=
  baseline_cell_is_100 tableC1 "X" [some 5, some 10] 0 5 (by decide) (by decide)
    (by decide) (by norm_num)

def tableB : Wide ℤ := { index := [1, 2, 3], cols := [("X", [some 0, some 10, some 20])] }

/-- C2: a column whose first present observation is 0 gets baseline 1
substituted, so every present cell is just multiplied by 100 (total, no
infinities); in particular the series `[0, 10, 20]` at times `[1, 2, 3]`
normalizes to `[0, 1000, 2000]`. -/
theorem zero_baseline_substituted (col : List Cell) (h : validStart col = some 0) :
    normalizeCol col = col.map (Option.map (fun v => v * 100)) ∧
      normalized_df tableB =
        { index := [1, 2, 3], cols := [("X", [some 0, some 1000, some 2000])] } := by
  constructor
  · simp [normalizeCol, h, replaceZero]
  · simp only [normalized_df, tableB]
    norm_num [normalizeCol, validStart, dropna, replaceZero]

/-- Witness for C2 at the Scenario-B column itself. -/
theorem zero_baseline_substituted_witness :
    normalizeCol [some 0, some 10, some 20] =
        [some 0, some 10, some 20].map (Option.map (fun v => v * 100)) ∧
      normalized_df tableB =
        { index := [1, 2, 3], cols := [("X", [some 0, some 1000, some 2000])] } :=
  zero_baseline_substituted [some 0, some 10, some 20] (by decide)

lemma normalizeCol_some (col : List Cell) (b : ℚ)
    (h : replaceZero (validStart col) = some b) :
    normalizeCol col = col.map (Option.map (fun v => v / b * 100)) := by
  simp only [normalizeCol, h]

lemma normalizeCol_none (col : List Cell) (h : validStart col = none) :
    normalizeCol col = col.map (fun _ => none) := by
  simp only [normalizeCol, h, replaceZero, Option.map_none']

/-- C7: a table whose every column is already rebased to 100 at its first
present observation (or is entirely missing) is left unchanged by a second
application of the normalization step. -/
theorem normalize_idempotent {τ : Type} (t : Wide τ)
    (h : ∀ c ∈ t.cols, validStart c.2 = some 100 ∨ validStart c.2 = none) :
    normalized_df t = t := by
  cases t with
  | mk idx cols =>
    simp only [normalized_df, Wide.mk.injEq, true_and]
    have : ∀ c ∈ cols, (c.1, normalizeCol c.2) = c := by
      intro c hc
      rcases h c hc with h100 | hnone
      · have : normalizeCol c.2 = c.2 := by
          have hb : replaceZero (validStart c.2) = some 100 := by
            norm_num [h100, replaceZero]
          rw [normalizeCol_some c.2 100 hb]
          have : ∀ x ∈ c.2, Option.map (fun v => v / 100 * 100) x = x := by
            intro x _
            cases x with
            | none => rfl
            | some a => simp [div_mul_cancel₀ a (by norm_num : (100 : ℚ) ≠ 0)]
          rw [List.map_congr_left this]
          exact List.map_id' c.2
        rw [this]
      · have hall := (validStart_eq_none_iff c.2).1 hnone
        have : normalizeCol c.2 = c.2 := by
          rw [normalizeCol_none c.2 hnone]
          have : ∀ x ∈ c.2, (fun _ => (none : Cell)) x = id x := by
            intro x hx
            simp [hall x hx]
          rw [List.map_congr_left this]
          exact List.map_id' c.2
        rw [this]
    rw [List.map_congr_left this]
    exact List.map_id' cols

def tableC7 : Wide ℤ :=
  { index := [1, 2], cols := [("X", [some 100, some 250]), ("Y", [none, none])] }

/-- Witness for C7 at a table already normalized to 100. -/
theorem normalize_idempotent_witness : normalized_df tableC7 = tableC7 :=
  normalize_idempotent tableC7 (by decide)

lemma dropna_map_div (col : List Cell) (f : ℚ → ℚ) :
    dropna (col.map (Option.map f)) = (dropna col).map f := by
  simp only [dropna, List.filterMap_map, List.map_filterMap]
  rfl

/-- C10: pre-scaling a column by 1/10^9 (the revenue display conversion)
before normalizing changes nothing when the column's first present value
is non-zero: the scaled column of the table still normalizes to the very
same column.  The invariance fails for a zero-starting column, where the
baseline substitution applies to the scaled values. -/
theorem normalize_scale_invariant (t : Wide ℤ) (name : String) (col : List Cell) (v : ℚ)
    (hmem : (name, col) ∈ t.cols) (h1 : validStart col = some v) (h2 : v ≠ 0) :
    (name, normalizeCol col) ∈ (normalized_df (df_display t)).cols ∧
      normalizeCol ([some 0, some 10, some 20].map (Option.map (fun x => x / 1000000000)))
        ≠ normalizeCol [some 0, some 10, some 20] := by
  have hscale : normalizeCol (col.map (Option.map (fun x => x / 1000000000)))
      = normalizeCol col := by
    have hv' : validStart (col.map (Option.map (fun x => x / 1000000000)))
        = some (v / 1000000000) := by
      simp [validStart, dropna_map_div, List.head?_map]
      simp [validStart] at h1
      simp [h1]
    have h2' : v / 1000000000 ≠ 0 := div_ne_zero h2 (by norm_num)
    rw [normalizeCol_some _ (v / 1000000000)
        (by simp only [replaceZero, hv', Option.map_some', if_neg h2']),
      normalizeCol_some col v (by simp only [replaceZero, h1, Option.map_some', if_neg h2])]
    rw [List.map_map]
    refine List.map_congr_left ?_
    intro x _
    cases x with
    | none => rfl
    | some a =>
      simp only [Function.comp_apply, Option.map_some', Option.some.injEq]
      rw [div_div_div_cancel_right₀]
      · norm_num
  constructor
  · have : (normalized_df (df_display t)).cols
        = t.cols.map (fun c =>
            (c.1, normalizeCol (c.2.map (Option.map (fun x => x / 1000000000))))) := by
      simp [normalized_df, df_display, List.map_map, Function.comp_def]
    rw [this]
    exact List.mem_map.2 ⟨(name, col), hmem, by rw [hscale]⟩
  · have hl : normalizeCol [some 0, some 10, some 20]
        = [some 0, some 1000, some 2000] := by
      norm_num [normalizeCol, validStart, dropna, replaceZero]
    have hr : normalizeCol ([some 0, some 10, some 20].map
          (Option.map (fun x => x / 1000000000)))
        = [some 0, some (1 / 1000000), some (1 / 500000)] := by
      norm_num [normalizeCol, validStart, dropna, replaceZero]
    rw [hl, hr]
    norm_num

/-- Witness for C10 at a concrete one-column table starting at 5. -/
theorem normalize_scale_invariant_witness :
    ("X", normalizeCol [some 5, some 10]) ∈ (normalized_df (df_display tableC1)).cols ∧
      normalizeCol ([some 0, some 10, some 20].map (Option.map (fun x => x / 1000000000)))
        ≠ normalizeCol [some 0, some 10, some 20] :=
  normalize_scale_invariant tableC1 "X" [some 5, some 10] 5 (by decide) (by decide)
    (by norm_num)

/-! ### The display table (C8) and the long form (C3) -/

/-- Position of the first occurrence of a label in a list. -/
def posOf {τ : Type} [DecidableEq τ] : List τ → τ → Option ℕ
  | [], _ => none
  | x :: xs, t => if x = t then some 0 else (posOf xs t).map (· + 1)

/-- The cell of a wide table in the column named `name` at the first row
labelled `t` (`NaN` when the column or the label is absent). -/
def cellAt {τ : Type} [DecidableEq τ] (W : Wide τ) (name : String) (t : τ) : Cell :=
  match W.cols.find? (fun c => decide (c.1 = name)) with
  | none => none
  | some c =>
    match posOf W.index t with
    | none => none
    | some i => (c.2[i]?).getD none

def tableC8 : Wide ℤ := { index := [2021], cols := [("X", [some 2000000000])] }

/-- C8 counterexample: the revenue display table is the aligned table with
every cell divided by 10^9, so a cell holding 2·10^9 is displayed as 2 —
the display transformation is not the identity on cell values. -/
theorem display_table_not_identity :
    df_display tableC8 = { index := [2021], cols := [("X", [some 2])] } ∧
      df_display tableC8 ≠ tableC8 := by
  have h1 : df_display tableC8 = { index := [2021], cols := [("X", [some 2])] } := by
    norm_num [df_display, tableC8]
  refine ⟨h1, ?_⟩
  rw [h1, tableC8]
  intro h
  rw [Wide.mk.injEq] at h
  norm_num at h

/-- C8 amended: in revenue mode the display step keeps the index and
divides every cell by 1,000,000,000 (the unit conversion of
`app.py` line 130); it performs no other computation, so every displayed
cell is the corresponding aligned cell divided by 10^9.  (In price mode
the displayed table is `df_stocks` itself, untransformed.) -/
theorem display_cell_is_scaled (t : Wide ℤ) (nm : String) (d : ℤ) :
    (df_display t).index = t.index ∧
      cellAt (df_display t) nm d = (cellAt t nm d).map (fun v => v / 1000000000) := by
  refine ⟨rfl, ?_⟩
  simp only [cellAt, df_display, List.find?_map, Function.comp_def]
  cases hf : t.cols.find? (fun c => decide (c.1 = nm)) with
  | none => simp
  | some c =>
    simp only [Option.map_some']
    cases hp : posOf t.index d with
    | none => simp
    | some i =>
      simp only [List.getElem?_map]
      cases hg : c.2[i]? with
      | none => simp
      | some x => cases x <;> simp

def tableC3 : Wide ℤ := { index := [1, 2], cols := [("X", [some 100, none])] }

/-- C3 counterexample: pandas `melt` keeps `NaN` cells, so the long form of
this table contains a row for its missing cell — the conversion does emit
rows for missing cells. -/
theorem long_form_emits_missing_cell_row :
    ((2 : ℤ), "X", (none : Cell)) ∈ df_long tableC3 := by decide

lemma melt_filter_name {τ : Type} (idx : List τ) :
    ∀ (cols : List (String × List Cell)) (name : String) (col : List Cell),
      (name, col) ∈ cols → (cols.map Prod.fst).Nodup →
      ((cols.flatMap (fun c => (idx.zip c.2).map (fun p => (p.1, c.1, p.2)))).filter
          (fun r => decide (r.2.1 = name))).map (fun r => (r.1, r.2.2))
        = idx.zip col := by
  intro cols
  induction cols with
  | nil => intro name col h _; simp at h
  | cons c rest ih =>
    intro name col hmem hnd
    rw [List.flatMap_cons, List.filter_append, List.map_append]
    rcases List.mem_cons.1 hmem with heq | hrest
    · obtain ⟨rfl, rfl⟩ : name = c.1 ∧ col = c.2 := by
        rw [Prod.ext_iff] at heq
        exact ⟨heq.1, heq.2⟩
      have hblock : ((idx.zip c.2).map (fun p => (p.1, c.1, p.2))).filter
          (fun r => decide (r.2.1 = c.1)) = (idx.zip c.2).map (fun p => (p.1, c.1, p.2)) := by
        refine List.filter_eq_self.2 ?_
        intro r hr
        obtain ⟨p, _, rfl⟩ := List.mem_map.1 hr
        simp
      have hrest0 : ((rest.flatMap
            (fun q => (idx.zip q.2).map (fun p => (p.1, q.1, p.2)))).filter
          (fun r => decide (r.2.1 = c.1))) = [] := by
        refine List.filter_eq_nil_iff.2 ?_
        intro r hr
        obtain ⟨q, hq, hr'⟩ := List.mem_flatMap.1 hr
        obtain ⟨p, _, rfl⟩ := List.mem_map.1 hr'
        have : q.1 ≠ c.1 := by
          intro h
          exact (List.nodup_cons.1 hnd).1 (h ▸ List.mem_map.2 ⟨q, hq, rfl⟩)
        simpa using this
      rw [hblock, hrest0, List.map_nil, List.append_nil, List.map_map]
      have : ∀ p ∈ idx.zip c.2,
          ((fun r : τ × String × Cell => (r.1, r.2.2)) ∘ fun p => (p.1, c.1, p.2)) p
            = id p := by
        intro p _
        rfl
      rw [List.map_congr_left this, List.map_id]
    · have hc1 : c.1 ≠ name := by
        intro h
        apply (List.nodup_cons.1 hnd).1
        rw [h]
        exact List.mem_map.2 ⟨(name, col), hrest, rfl⟩
      have hblock0 : ((idx.zip c.2).map (fun p => (p.1, c.1, p.2))).filter
          (fun r => decide (r.2.1 = name)) = [] := by
        refine List.filter_eq_nil_iff.2 ?_
        intro r hr
        obtain ⟨p, _, rfl⟩ := List.mem_map.1 hr
        simpa using hc1
      rw [hblock0, List.map_nil, List.nil_append]
      exact ih name col hrest (List.nodup_cons.1 hnd).2

/-- C3 amended: the long-form conversion emits exactly one row per
(timestamp, column) position — missing cells included, emitted as rows
with a `NaN` value — and restricting the rows to one instrument recovers
that instrument's column of the wide table exactly (hence in particular
its non-missing subset). -/
theorem long_form_row_per_pair {τ : Type} (t : Wide τ)
    (name : String) (col : List Cell)
    (hmem : (name, col) ∈ t.cols) (hnd : (t.cols.map Prod.fst).Nodup)
    (hlen : ∀ c ∈ t.cols, c.2.length = t.index.length) :
    (df_long t).length = t.cols.length * t.index.length ∧
      ((df_long t).filter (fun r => decide (r.2.1 = name))).map (fun r => (r.1, r.2.2))
        = t.index.zip col := by
  constructor
  · rw [df_long, List.length_flatMap]
    have hlens : ∀ c ∈ t.cols,
        ((t.index.zip c.2).map (fun p => (p.1, c.1, p.2))).length = t.index.length := by
      intro c hc
      rw [List.length_map, List.length_zip, hlen c hc, Nat.min_self]
    calc (t.cols.map (fun c =>
            ((t.index.zip c.2).map (fun p => (p.1, c.1, p.2))).length)).sum
        = (t.cols.map (fun _ => t.index.length)).sum :=
          congrArg List.sum (List.map_congr_left hlens)
      _ = t.cols.length * t.index.length := by
          rw [List.map_const', List.sum_replicate, smul_eq_mul]
  · exact melt_filter_name t.index t.cols name col hmem hnd

/-- Witness for the amended C3 at the concrete table with a missing cell. -/
theorem long_form_row_per_pair_witness :
    (df_long tableC3).length = tableC3.cols.length * tableC3.index.length ∧
      ((df_long tableC3).filter (fun r => decide (r.2.1 = "X"))).map (fun r => (r.1, r.2.2))
        = tableC3.index.zip [some 100, none] :=
  long_form_row_per_pair tableC3 "X" [some 100, none] (by decide) (by decide) (by decide)

/-! ### Facts about the fetch loops and the merge -/

lemma load_data_loop_fst {τ : Type} (src : String → PriceFetch τ) :
    ∀ l : List (String × String),
      (load_data_loop src l).1
        = l.filterMap (fun p => (okClose (src p.2)).map (fun cv => (p.1, cv))) := by
  intro l
  induction l with
  | nil => rfl
  | cons p rest ih =>
    rw [List.filterMap_cons]
    cases hs : src p.2 with
    | raiseErr e => simp [load_data_loop, hs, okClose, ih]
    | frame df =>
      cases he : df.isEmpty with
      | true => simp [load_data_loop, hs, okClose, he, ih]
      | false =>
        cases hc : df.close with
        | none => simp [load_data_loop, hs, okClose, he, hc, ih]
        | some cv => simp [load_data_loop, hs, okClose, he, hc, ih]

lemma idxOf_eq_headIdx_of_allIdxEq {τ : Type} [DecidableEq τ]
    (data : List (String × Series τ)) (h : allIdxEq data = true) :
    ∀ r ∈ data, idxOf r.2 = headIdx data := by
  cases data with
  | nil => intro r hr; simp at hr
  | cons a rest =>
    intro r hr
    rcases List.mem_cons.1 hr with rfl | hr'
    · rfl
    · simp only [allIdxEq] at h
      have hall := List.all_eq_true.1 h r hr'
      simpa [headIdx] using of_decide_eq_true hall

lemma mergeSeries_ok_of_sorted {τ : Type} [LinearOrder τ] (data : List (String × Series τ))
    (h : ∀ r ∈ data, (idxOf r.2).Sorted (· < ·)) :
    ∃ W, mergeSeries data = Except.ok W ∧ W.index.Sorted (· < ·) ∧ W.index.Nodup ∧
      ∀ c ∈ W.cols, c.2.length = W.index.length := by
  cases ha : allIdxEq data with
  | true =>
    have hW : mergeSeries data
        = Except.ok { index := headIdx data
                      cols := data.map (fun r => (r.1, r.2.map (fun p => p.2))) } := by
      simp [mergeSeries, ha]
    have hsorted : (headIdx data).Sorted (· < ·) := by
      cases data with
      | nil => simp [headIdx]
      | cons a rest => exact h a (List.mem_cons_self a rest)
    refine ⟨_, hW, hsorted, hsorted.nodup, ?_⟩
    intro c hc
    obtain ⟨r, hr, rfl⟩ := List.mem_map.1 hc
    have hidx := idxOf_eq_headIdx_of_allIdxEq data ha r hr
    calc (r.2.map (fun p => p.2)).length = r.2.length := List.length_map _ _
      _ = (idxOf r.2).length := (List.length_map _ _).symm
      _ = (headIdx data).length := by rw [hidx]
  | false =>
    have hnodup : ∀ r ∈ data, (idxOf r.2).Nodup := fun r hr => (h r hr).nodup
    have hany : data.any (fun r => !(decide (idxOf r.2).Nodup)) = false := by
      rw [List.any_eq_false]
      intro r hr
      simp [hnodup r hr]
    have hW : mergeSeries data
        = Except.ok { index := sortedUnion data
                      cols := data.map (fun r => (r.1, (sortedUnion data).map (lookup r.2))) } := by
      simp [mergeSeries, ha, hany]
    have hle : (sortedUnion data).Sorted (· ≤ ·) := List.sorted_insertionSort _ _
    have hnd : (sortedUnion data).Nodup :=
      ((List.perm_insertionSort _ _).nodup_iff).2 (List.nodup_dedup _)
    refine ⟨_, hW, hle.lt_of_le hnd, hnd, ?_⟩
    intro c hc
    obtain ⟨r, hr, rfl⟩ := List.mem_map.1 hc
    exact List.length_map _ _

lemma yearize_index_sorted (t : Wide FDate) : (yearize t).index.Sorted (· ≤ ·) := by
  have hs : (sortPerm (t.index.map FDate.year)).Pairwise
      (fun a b => (t.index.map FDate.year).getD a 0 ≤ (t.index.map FDate.year).getD b 0) := by
    haveI h1 : IsTotal ℕ (fun a b =>
        (t.index.map FDate.year).getD a 0 ≤ (t.index.map FDate.year).getD b 0) :=
      ⟨fun a b => le_total _ _⟩
    haveI h2 : IsTrans ℕ (fun a b =>
        (t.index.map FDate.year).getD a 0 ≤ (t.index.map FDate.year).getD b 0) :=
      ⟨fun _ _ _ hab hbc => le_trans hab hbc⟩
    exact List.sorted_insertionSort _ _
  show ((sortPerm (t.index.map FDate.year)).map
      (fun i => (t.index.map FDate.year).getD i 0)).Pairwise (· ≤ ·)
  rw [List.pairwise_map]
  exact hs

/-! ### C5: structural merge failures -/

/-- A price-mode source whose first instrument's `Close` is a multi-column
frame (as happens with `yfinance` multi-level columns) and whose second is
a fine series. -/
def badCloseSrc : String → PriceFetch ℤ := fun t =>
  if t = "a" then .frame { isEmpty := false, close := some (.frame [[(1, some 10)]]) }
  else .frame { isEmpty := false, close := some (.series [(1, some 20)]) }

/-- A revenue-mode source whose first instrument reports two statements
under the same fiscal date (duplicate index labels) and whose second is
fine: both pass the per-instrument checks, and the merge's reindexing then
raises `ValueError`. -/
def dupDateSrc : String → RevFetch := fun t =>
  if t = "a" then
    .fin { dates := [⟨2023, 5⟩, ⟨2023, 5⟩], rows := [(totalRevenueKey, [some 1, some 2])] }
  else .fin { dates := [⟨2023, 7⟩], rows := [(totalRevenueKey, [some 3])] }

/-- C5 counterexample: in price mode the merge is unguarded
(`04_semi.py` lines 41-42 have no `try`), so a structurally bad collected
value makes `load_data` propagate the raised `ValueError` — it does not
return an empty table with a `StructuralError` warning. -/
theorem price_merge_failure_raises :
    load_data badCloseSrc [("A", "a"), ("B", "b")]
      = ([], Except.error valueErrorFrameMsg) := by
  rfl

/-- C5 amended: only revenue mode guards the merge: a structural merge
failure there degrades to an empty table plus a `StructuralError` warning
appended after the per-instrument warnings (`app.py` lines 62-65), while
in price mode the unguarded merge propagates the exception instead of
returning an empty table with a warning. -/
theorem merge_failure_handling (src : String → RevFetch)
    (instruments : List (String × String)) (e : String)
    (h : mergeSeries (load_revenue_loop src instruments).1 = Except.error e) :
    load_revenue_data src instruments
      = ((load_revenue_loop src instruments).2 ++ [Warning.structuralError e],
          { index := [], cols := [] }) ∧
      (load_data badCloseSrc [("A", "a"), ("B", "b")]).2
        = Except.error valueErrorFrameMsg := by
  refine ⟨?_, rfl⟩
  have hne : (load_revenue_loop src instruments).1.isEmpty = false := by
    cases hd : (load_revenue_loop src instruments).1 with
    | nil => rw [hd] at h; simp [mergeSeries, allIdxEq] at h
    | cons a l => rfl
  simp [load_revenue_data, hne, h]

/-- Witness for the amended C5: a concrete revenue batch whose merge
raises on duplicate fiscal-date labels. -/
theorem merge_failure_handling_witness :
    load_revenue_data dupDateSrc [("A", "a"), ("B", "b")]
      = ((load_revenue_loop dupDateSrc [("A", "a"), ("B", "b")]).2
          ++ [Warning.structuralError reindexErrMsg],
          { index := [], cols := [] }) ∧
      (load_data badCloseSrc [("A", "a"), ("B", "b")]).2
        = Except.error valueErrorFrameMsg :=
  merge_failure_handling dupDateSrc [("A", "a"), ("B", "b")] reindexErrMsg (by rfl)

/-! ### C6: the aligned index -/

/-- A revenue-mode source with two well-formed instruments whose fiscal
dates fall in the same calendar year at different dates. -/
def fiscalSrc : String → RevFetch := fun t =>
  if t = "a" then .fin { dates := [⟨2023, 90⟩], rows := [(totalRevenueKey, [some 5])] }
  else .fin { dates := [⟨2023, 364⟩], rows := [(totalRevenueKey, [some 7])] }

/-- C6 counterexample: the revenue pipeline unions the fiscal dates and
only then projects to years, so two instruments with different fiscal
dates in the same year give the output table the index `[2023, 2023]` —
duplicate years, even though every fetched series was well-formed. -/
theorem revenue_index_has_duplicate_years :
    (load_revenue_data fiscalSrc [("A", "a"), ("B", "b")]).2.index = [2023, 2023] ∧
      ¬ (load_revenue_data fiscalSrc [("A", "a"), ("B", "b")]).2.index.Nodup := by
  constructor <;> decide

/-- Whether the success value of a price fetch, if any, is a true series
with a strictly increasing time index. -/
def wfSortedClose {τ : Type} [LinearOrder τ] : Option (CloseVal τ) → Bool
  | none => true
  | some (.series s) => decide ((idxOf s).Sorted (· < ·))
  | some (.frame _) => false

/-- C6 amended: in price mode, whenever every successful fetch is a true
series with strictly increasing timestamps, the merge succeeds and the
aligned table's index is strictly increasing and duplicate-free, with
every column exactly as long as the index; in revenue mode the year index
is only sorted non-decreasingly — duplicate years can occur. -/
theorem aligned_index_strictly_increasing (src : String → PriceFetch ℤ)
    (instruments : List (String × String))
    (hwf : ∀ p ∈ instruments, wfSortedClose (okClose (src p.2)) = true) :
    (∃ W, (load_data src instruments).2 = Except.ok W ∧
        W.index.Sorted (· < ·) ∧ W.index.Nodup ∧
        ∀ c ∈ W.cols, c.2.length = W.index.length) ∧
      ∀ (srcR : String → RevFetch) (instsR : List (String × String)),
        (load_revenue_data srcR instsR).2.index.Sorted (· ≤ ·) := by
  constructor
  · have hdata : ∀ q ∈ (load_data_loop src instruments).1,
        ∃ s, q.2 = CloseVal.series s ∧ (idxOf s).Sorted (· < ·) := by
      intro q hq
      rw [load_data_loop_fst] at hq
      obtain ⟨p, hp, hq'⟩ := List.mem_filterMap.1 hq
      obtain ⟨cv, hcv, heq⟩ := Option.map_eq_some'.1 hq'
      have hw := hwf p hp
      rw [hcv] at hw
      cases cv with
      | series s =>
        refine ⟨s, ?_, ?_⟩
        · rw [← heq]
        · exact of_decide_eq_true (by simpa [wfSortedClose] using hw)
      | frame f => simp [wfSortedClose] at hw
    cases hd : (load_data_loop src instruments).1 with
    | nil =>
      refine ⟨{ index := [], cols := [] }, ?_, by simp, by simp, by simp⟩
      simp [load_data, hd]
    | cons a l =>
      have hnf : ((a :: l).any (fun q => isFrame q.2)) = false := by
        rw [List.any_eq_false]
        intro q hq
        obtain ⟨s, hs, _⟩ := hdata q (hd ▸ hq)
        simp [hs, isFrame]
      have hsorted : ∀ r ∈ (a :: l).map (fun q => (q.1, asSeries q.2)),
          (idxOf r.2).Sorted (· < ·) := by
        intro r hr
        obtain ⟨q, hq, rfl⟩ := List.mem_map.1 hr
        obtain ⟨s, hs, hsort⟩ := hdata q (hd ▸ hq)
        simpa [hs, asSeries] using hsort
      obtain ⟨W, hW, h1, h2, h3⟩ := mergeSeries_ok_of_sorted _ hsorted
      refine ⟨W, ?_, h1, h2, h3⟩
      simpa [load_data, hd, mergeClose, hnf] using hW
  · intro srcR instsR
    by_cases hd : (load_revenue_loop srcR instsR).1.isEmpty
    · simp [load_revenue_data, hd]
    · cases hm : mergeSeries (load_revenue_loop srcR instsR).1 with
      | ok t =>
        have hv : (load_revenue_data srcR instsR).2 = yearize t := by
          simp [load_revenue_data, hd, hm]
        rw [hv]
        exact yearize_index_sorted t
      | error e =>
        have hv : (load_revenue_data srcR instsR).2 = { index := [], cols := [] } := by
          simp [load_revenue_data, hd, hm]
        rw [hv]
        exact List.sorted_nil

/-- A price-mode source realizing Scenario D: one transport error, one
good series. -/
def srcScenarioD : String → PriceFetch ℤ := fun t =>
  if t = "a" then .raiseErr "connection reset"
  else .frame { isEmpty := false, close := some (.series [(1, some 10), (2, some 20)]) }

/-- Witness for the amended C6 at the Scenario-D price source. -/
theorem aligned_index_strictly_increasing_witness :
    (∃ W, (load_data srcScenarioD [("A", "a"), ("B", "b")]).2 = Except.ok W ∧
        W.index.Sorted (· < ·) ∧ W.index.Nodup ∧
        ∀ c ∈ W.cols, c.2.length = W.index.length) ∧
      ∀ (srcR : String → RevFetch) (instsR : List (String × String)),
        (load_revenue_data srcR instsR).2.index.Sorted (· ≤ ·) :=
  aligned_index_strictly_increasing srcScenarioD [("A", "a"), ("B", "b")] (by decide)

/-! ### Per-instrument loop facts shared by the C4 and C9 theorems -/

lemma load_revenue_loop_fst (src : String → RevFetch) :
    ∀ l : List (String × String),
      (load_revenue_loop src l).1
        = l.filterMap (fun p => (okRev (src p.2)).map (fun s => (p.1, s))) := by
  intro l
  induction l with
  | nil => rfl
  | cons p rest ih =>
    rw [List.filterMap_cons]
    cases hs : src p.2 with
    | raiseErr e => simp [load_revenue_loop, hs, okRev, ih]
    | fin ft =>
      cases hA : ft.rows.any (fun row => decide (row.1 = totalRevenueKey)) with
      | false => simp [load_revenue_loop, hs, okRev, hA, ih]
      | true =>
        cases hM : (ft.rows.filter (fun row => decide (row.1 = totalRevenueKey))).map
            (fun row => row.2) with
        | nil => simp [load_revenue_loop, hs, okRev, hA, hM, ih]
        | cons vals rest2 =>
          cases rest2 with
          | nil =>
            cases hE : ft.dates.isEmpty with
            | true => simp [load_revenue_loop, hs, okRev, hA, hM, hE, ih]
            | false => simp [load_revenue_loop, hs, okRev, hA, hM, hE, ih]
          | cons b rest3 => simp [load_revenue_loop, hs, okRev, hA, hM, ih]

lemma not_mem_price_data (src : String → PriceFetch ℤ) (l : List (String × String))
    (hnd : (l.map Prod.fst).Nodup) (n t : String) (hmem : (n, t) ∈ l)
    (hfail : okClose (src t) = none) :
    n ∉ (load_data_loop src l).1.map Prod.fst := by
  rw [load_data_loop_fst]
  intro hmm
  obtain ⟨q, hq, hq1⟩ := List.mem_map.1 hmm
  obtain ⟨p, hp, hps⟩ := List.mem_filterMap.1 hq
  obtain ⟨cv, hcv, heq⟩ := Option.map_eq_some'.1 hps
  have hp1 : p.1 = n := by rw [← hq1, ← heq]
  have hpe : p = (n, t) := List.inj_on_of_nodup_map hnd hp hmem hp1
  rw [hpe] at hcv
  rw [hcv] at hfail
  exact Option.some_ne_none cv hfail

lemma not_mem_revenue_data (src : String → RevFetch) (l : List (String × String))
    (hnd : (l.map Prod.fst).Nodup) (n t : String) (hmem : (n, t) ∈ l)
    (hfail : okRev (src t) = none) :
    n ∉ (load_revenue_loop src l).1.map Prod.fst := by
  rw [load_revenue_loop_fst]
  intro hmm
  obtain ⟨q, hq, hq1⟩ := List.mem_map.1 hmm
  obtain ⟨p, hp, hps⟩ := List.mem_filterMap.1 hq
  obtain ⟨s, hcv, heq⟩ := Option.map_eq_some'.1 hps
  have hp1 : p.1 = n := by rw [← hq1, ← heq]
  have hpe : p = (n, t) := List.inj_on_of_nodup_map hnd hp hmem hp1
  rw [hpe] at hcv
  rw [hcv] at hfail
  exact Option.some_ne_none s hfail

lemma warn_of_price_failure (src : String → PriceFetch ℤ) :
    ∀ (l : List (String × String)) (n t : String), (n, t) ∈ l →
      okClose (src t) = none →
      ∃ w ∈ (load_data_loop src l).2, w.instrument = some n := by
  intro l
  induction l with
  | nil => intro n t h _; simp at h
  | cons p rest ih =>
    intro n t hmem hfail
    have hsub : ∀ w ∈ (load_data_loop src rest).2, w ∈ (load_data_loop src (p :: rest)).2 := by
      intro w hw
      cases hs : src p.2 with
      | raiseErr e => simp [load_data_loop, hs, hw]
      | frame df =>
        cases he : df.isEmpty with
        | true => simp [load_data_loop, hs, he, hw]
        | false =>
          cases hc : df.close with
          | none => simp [load_data_loop, hs, he, hc, hw]
          | some cv => simpa [load_data_loop, hs, he, hc] using hw
    rcases List.mem_cons.1 hmem with heq | hrest
    · obtain ⟨rfl, rfl⟩ : n = p.1 ∧ t = p.2 := by
        cases heq
        exact ⟨rfl, rfl⟩
      cases hs : src p.2 with
      | raiseErr e =>
        exact ⟨.fetchError p.1 e, by simp [load_data_loop, hs], rfl⟩
      | frame df =>
        cases he : df.isEmpty with
        | true => exact ⟨.noData p.1, by simp [load_data_loop, hs, he], rfl⟩
        | false =>
          cases hc : df.close with
          | none =>
            exact ⟨.fetchError p.1 keyErrorMsg, by simp [load_data_loop, hs, he, hc], rfl⟩
          | some cv =>
            rw [hs] at hfail
            simp [okClose, he, hc] at hfail
    · obtain ⟨w, hw, hwn⟩ := ih n t hrest hfail
      exact ⟨w, hsub w hw, hwn⟩

lemma warn_of_revenue_failure (src : String → RevFetch) :
    ∀ (l : List (String × String)) (n t : String), (n, t) ∈ l →
      (∃ ft, src t = RevFetch.fin ft) → okRev (src t) = none →
      ∃ w ∈ (load_revenue_loop src l).2,
        w = Warning.noData n ∨ w = Warning.shapeMismatch n := by
  intro l
  induction l with
  | nil => intro n t h _ _; simp at h
  | cons p rest ih =>
    intro n t hmem hfin hfail
    have hsub : ∀ w ∈ (load_revenue_loop src rest).2,
        w ∈ (load_revenue_loop src (p :: rest)).2 := by
      intro w hw
      cases hs : src p.2 with
      | raiseErr e => simp [load_revenue_loop, hs, hw]
      | fin ft =>
        cases hA : ft.rows.any (fun row => decide (row.1 = totalRevenueKey)) with
        | false => simp [load_revenue_loop, hs, hA, hw]
        | true =>
          cases hM : (ft.rows.filter (fun row => decide (row.1 = totalRevenueKey))).map
              (fun row => row.2) with
          | nil => simp [load_revenue_loop, hs, hA, hM, hw]
          | cons vals rest2 =>
            cases rest2 with
            | nil =>
              cases hE : ft.dates.isEmpty with
              | true => simp [load_revenue_loop, hs, hA, hM, hE, hw]
              | false => simpa [load_revenue_loop, hs, hA, hM, hE] using hw
            | cons b rest3 => simp [load_revenue_loop, hs, hA, hM, hw]
    rcases List.mem_cons.1 hmem with heq | hrest
    · obtain ⟨rfl, rfl⟩ : n = p.1 ∧ t = p.2 := by
        cases heq
        exact ⟨rfl, rfl⟩
      obtain ⟨ft, hs⟩ := hfin
      rw [hs] at hfail
      cases hA : ft.rows.any (fun row => decide (row.1 = totalRevenueKey)) with
      | false =>
        exact ⟨.noData p.1, by simp [load_revenue_loop, hs, hA], Or.inl rfl⟩
      | true =>
        cases hM : (ft.rows.filter (fun row => decide (row.1 = totalRevenueKey))).map
            (fun row => row.2) with
        | nil =>
          exact ⟨.shapeMismatch p.1, by simp [load_revenue_loop, hs, hA, hM], Or.inr rfl⟩
        | cons vals rest2 =>
          cases rest2 with
          | nil =>
            cases hE : ft.dates.isEmpty with
            | true =>
              exact ⟨.shapeMismatch p.1,
                by simp [load_revenue_loop, hs, hA, hM, hE], Or.inr rfl⟩
            | false => simp [okRev, hA, hM, hE] at hfail
          | cons b rest3 =>
            exact ⟨.shapeMismatch p.1,
              by simp [load_revenue_loop, hs, hA, hM], Or.inr rfl⟩
    · obtain ⟨w, hw, hwk⟩ := ih n t hrest hfin hfail
      exact ⟨w, hsub w hw, hwk⟩

lemma revenue_loop_warn_instrument (src : String → RevFetch) :
    ∀ (l : List (String × String)), ∀ w ∈ (load_revenue_loop src l).2,
      ∃ m, w.instrument = some m := by
  intro l
  induction l with
  | nil => intro w hw; simp [load_revenue_loop] at hw
  | cons p rest ih =>
    intro w hw
    simp only [load_revenue_loop] at hw
    split at hw
    · rcases List.mem_cons.1 hw with rfl | hw'
      · exact ⟨_, rfl⟩
      · exact ih w hw'
    · split at hw
      · split at hw
        · split at hw
          · rcases List.mem_cons.1 hw with rfl | hw'
            · exact ⟨_, rfl⟩
            · exact ih w hw'
          · exact ih w hw
        · rcases List.mem_cons.1 hw with rfl | hw'
          · exact ⟨_, rfl⟩
          · exact ih w hw'
      · rcases List.mem_cons.1 hw with rfl | hw'
        · exact ⟨_, rfl⟩
        · exact ih w hw'

lemma posOf_getElem {τ : Type} [DecidableEq τ] :
    ∀ (l : List τ) (t : τ) (i : ℕ), posOf l t = some i → l[i]? = some t := by
  intro l
  induction l with
  | nil => intro t i h; simp [posOf] at h
  | cons x xs ih =>
    intro t i h
    by_cases hx : x = t
    · rw [posOf, if_pos hx] at h
      obtain rfl : (0 : ℕ) = i := Option.some.inj h
      simp [hx]
    · rw [posOf, if_neg hx, Option.map_eq_some'] at h
      obtain ⟨j, hj, rfl⟩ := h
      simpa using ih t j hj

lemma posOf_of_mem {τ : Type} [DecidableEq τ] :
    ∀ (l : List τ) (t : τ), t ∈ l → ∃ i, posOf l t = some i := by
  intro l
  induction l with
  | nil => intro t h; simp at h
  | cons x xs ih =>
    intro t h
    by_cases hx : x = t
    · exact ⟨0, by rw [posOf, if_pos hx]⟩
    · rcases List.mem_cons.1 h with rfl | h'
      · exact absurd rfl hx
      · obtain ⟨j, hj⟩ := ih t h'
        exact ⟨j + 1, by rw [posOf, if_neg hx, hj, Option.map_some']⟩

lemma find?_entry {τ : Type} [DecidableEq τ] :
    ∀ (s : Series τ) (dv : τ × Cell), dv ∈ s → (idxOf s).Nodup →
      s.find? (fun p => decide (p.1 = dv.1)) = some dv := by
  intro s
  induction s with
  | nil => intro dv h _; simp at h
  | cons e rest ih =>
    intro dv hdv hnd
    rw [List.find?_cons]
    by_cases h : e.1 = dv.1
    · have : dv = e := by
        rcases List.mem_cons.1 hdv with heq | hrest
        · exact heq
        · exfalso
          have : dv.1 ∈ idxOf rest := List.mem_map.2 ⟨dv, hrest, rfl⟩
          exact (List.nodup_cons.1 (by simpa [idxOf] using hnd)).1 (h ▸ this)
      rw [decide_eq_true h]
      rw [this]
    · rw [decide_eq_false h]
      rcases List.mem_cons.1 hdv with heq | hrest
      · exact absurd (congrArg Prod.fst heq.symm) h
      · exact ih dv hrest (List.nodup_cons.1 (by simpa [idxOf] using hnd)).2

lemma lookup_eq {τ : Type} [DecidableEq τ] (s : Series τ) (dv : τ × Cell)
    (hdv : dv ∈ s) (hnd : (idxOf s).Nodup) : lookup s dv.1 = dv.2 := by
  rw [lookup, find?_entry s dv hdv hnd]

lemma entry_at_pos {τ : Type} [DecidableEq τ] :
    ∀ (s : Series τ) (dv : τ × Cell) (i : ℕ), dv ∈ s → (idxOf s).Nodup →
      posOf (idxOf s) dv.1 = some i → s[i]? = some dv := by
  intro s
  induction s with
  | nil => intro dv i h _ _; simp at h
  | cons e rest ih =>
    intro dv i hdv hnd hpos
    have hidx : idxOf (e :: rest) = e.1 :: idxOf rest := rfl
    rw [hidx] at hpos
    by_cases h : e.1 = dv.1
    · rw [posOf, if_pos h] at hpos
      obtain rfl : (0 : ℕ) = i := Option.some.inj hpos
      have : dv = e := by
        rcases List.mem_cons.1 hdv with heq | hrest
        · exact heq
        · exfalso
          have : dv.1 ∈ idxOf rest := List.mem_map.2 ⟨dv, hrest, rfl⟩
          exact (List.nodup_cons.1 (by simpa [idxOf] using hnd)).1 (h ▸ this)
      simp [this]
    · rw [posOf, if_neg h, Option.map_eq_some'] at hpos
      obtain ⟨j, hj, rfl⟩ := hpos
      have hrest : dv ∈ rest := by
        rcases List.mem_cons.1 hdv with heq | hr
        · exact absurd (congrArg Prod.fst heq.symm) h
        · exact hr
      simpa using ih dv j hrest (List.nodup_cons.1 (by simpa [idxOf] using hnd)).2 hj

lemma find?_cols {β γ : Type} (G : String × β → γ) :
    ∀ (data : List (String × β)) (n : String) (b : β), (n, b) ∈ data →
      (data.map Prod.fst).Nodup →
      (data.map (fun r => (r.1, G r))).find? (fun c => decide (c.1 = n))
        = some (n, G (n, b)) := by
  intro data
  induction data with
  | nil => intro n b h _; simp at h
  | cons r rest ih =>
    intro n b hmem hnd
    rw [List.map_cons, List.find?_cons]
    by_cases h : r.1 = n
    · have hre : r = (n, b) := by
        rcases List.mem_cons.1 hmem with heq | hrest
        · exact heq.symm
        · exfalso
          have : n ∈ rest.map Prod.fst := List.mem_map.2 ⟨(n, b), hrest, rfl⟩
          exact (List.nodup_cons.1 hnd).1 (h ▸ this)
      have : decide ((r.1, G r).1 = n) = true := decide_eq_true h
      rw [this, hre]
    · have hrest : (n, b) ∈ rest := by
        rcases List.mem_cons.1 hmem with heq | hr
        · exact absurd (congrArg Prod.fst heq.symm) h
        · exact hr
      have : decide ((r.1, G r).1 = n) = false := decide_eq_false h
      rw [this]
      exact ih n b hrest (List.nodup_cons.1 hnd).2

lemma mergeSeries_ok_of_nodup {τ : Type} [LinearOrder τ] (data : List (String × Series τ))
    (h : ∀ r ∈ data, (idxOf r.2).Nodup) :
    ∃ W, mergeSeries data = Except.ok W := by
  cases ha : allIdxEq data with
  | true =>
    exact ⟨{ index := headIdx data
             cols := data.map (fun r => (r.1, r.2.map (fun p => p.2))) },
      by simp [mergeSeries, ha]⟩
  | false =>
    have hany : data.any (fun r => !(decide (idxOf r.2).Nodup)) = false := by
      rw [List.any_eq_false]
      intro r hr
      simp [h r hr]
    exact ⟨{ index := sortedUnion data
             cols := data.map (fun r => (r.1, (sortedUnion data).map (lookup r.2))) },
      by simp [mergeSeries, ha, hany]⟩

lemma mergeSeries_names {τ : Type} [LinearOrder τ] (data : List (String × Series τ))
    (W : Wide τ) (hW : mergeSeries data = Except.ok W) :
    W.cols.map Prod.fst = data.map Prod.fst := by
  have hmap : ∀ (G : String × Series τ → List Cell),
      (data.map (fun r => (r.1, G r))).map Prod.fst = data.map Prod.fst := by
    intro G
    rw [List.map_map]
    rfl
  rw [mergeSeries] at hW
  split at hW
  · obtain rfl := (Except.ok.inj hW).symm
    exact hmap _
  · split at hW
    · exact absurd hW (by simp)
    · obtain rfl := (Except.ok.inj hW).symm
      exact hmap _

lemma mergeSeries_cellAt {τ : Type} [LinearOrder τ] (data : List (String × Series τ))
    (W : Wide τ) (hW : mergeSeries data = Except.ok W)
    (hnd : (data.map Prod.fst).Nodup) (hwf : ∀ r ∈ data, (idxOf r.2).Nodup)
    (n : String) (s : Series τ) (hmem : (n, s) ∈ data) :
    ∀ dv ∈ s, cellAt W n dv.1 = dv.2 := by
  intro dv hdv
  rw [mergeSeries] at hW
  split at hW
  case isTrue ha =>
    obtain rfl := (Except.ok.inj hW).symm
    have hfind := find?_cols (fun r => r.2.map (fun p => p.2)) data n s hmem hnd
    have hidx : headIdx data = idxOf s :=
      (idxOf_eq_headIdx_of_allIdxEq data (by simpa using ha) (n, s) hmem).symm
    obtain ⟨i, hpos⟩ := posOf_of_mem (idxOf s) dv.1 (List.mem_map.2 ⟨dv, hdv, rfl⟩)
    have hval : s[i]? = some dv := entry_at_pos s dv i hdv (hwf (n, s) hmem) hpos
    simp only [cellAt, hfind, hidx, hpos, List.getElem?_map, hval, Option.map_some',
      Option.getD_some]
  case isFalse ha =>
    split at hW
    · exact absurd hW (by simp)
    case isFalse hb =>
      obtain rfl := (Except.ok.inj hW).symm
      have hfind := find?_cols (fun r => (sortedUnion data).map (lookup r.2)) data n s hmem hnd
      have hmemu : dv.1 ∈ sortedUnion data := by
        rw [sortedUnion, (List.perm_insertionSort _ _).mem_iff, List.mem_dedup]
        exact List.mem_flatMap.2 ⟨(n, s), hmem, List.mem_map.2 ⟨dv, hdv, rfl⟩⟩
      obtain ⟨i, hpos⟩ := posOf_of_mem (sortedUnion data) dv.1 hmemu
      have hu : (sortedUnion data)[i]? = some dv.1 := posOf_getElem (sortedUnion data) dv.1 i hpos
      simp only [cellAt, hfind, hpos, List.getElem?_map, hu, Option.map_some',
        Option.getD_some]
      exact lookup_eq s dv hdv (hwf (n, s) hmem)

lemma mergeSeries_col {τ : Type} [LinearOrder τ] (data : List (String × Series τ))
    (W : Wide τ) (hW : mergeSeries data = Except.ok W)
    (hwf : ∀ r ∈ data, (idxOf r.2).Nodup)
    (n : String) (s : Series τ) (hmem : (n, s) ∈ data) :
    ∃ col, (n, col) ∈ W.cols ∧ col.length = W.index.length ∧ ∀ dv ∈ s, dv.2 ∈ col := by
  rw [mergeSeries] at hW
  split at hW
  case isTrue ha =>
    obtain rfl := (Except.ok.inj hW).symm
    refine ⟨s.map (fun p => p.2), List.mem_map.2 ⟨(n, s), hmem, rfl⟩, ?_, ?_⟩
    · have hidx : idxOf s = headIdx data :=
        idxOf_eq_headIdx_of_allIdxEq data (by simpa using ha) (n, s) hmem
      calc (s.map (fun p => p.2)).length = s.length := List.length_map _ _
        _ = (idxOf s).length := (List.length_map _ _).symm
        _ = (headIdx data).length := by rw [hidx]
    · intro dv hdv
      exact List.mem_map.2 ⟨dv, hdv, rfl⟩
  case isFalse ha =>
    split at hW
    · exact absurd hW (by simp)
    case isFalse hb =>
      obtain rfl := (Except.ok.inj hW).symm
      refine ⟨(sortedUnion data).map (lookup s), List.mem_map.2 ⟨(n, s), hmem, rfl⟩,
        List.length_map _ _, ?_⟩
      intro dv hdv
      have hmemu : dv.1 ∈ sortedUnion data := by
        rw [sortedUnion, (List.perm_insertionSort _ _).mem_iff, List.mem_dedup]
        exact List.mem_flatMap.2 ⟨(n, s), hmem, List.mem_map.2 ⟨dv, hdv, rfl⟩⟩
      exact List.mem_map.2 ⟨dv.1, hmemu, lookup_eq s dv hdv (hwf (n, s) hmem)⟩

lemma yearize_col (t : Wide FDate) (name : String) (col : List Cell)
    (hmem : (name, col) ∈ t.cols) (hlen : col.length = t.index.length) :
    ∃ col2, (name, col2) ∈ (yearize t).cols ∧ ∀ x ∈ col, x ∈ col2 := by
  refine ⟨(sortPerm (t.index.map FDate.year)).map (fun i => col.getD i none),
    List.mem_map.2 ⟨(name, col), hmem, rfl⟩, ?_⟩
  intro x hx
  obtain ⟨i, hget⟩ := List.mem_iff_getElem?.1 hx
  have hilt : i < col.length := by
    by_contra hge
    rw [List.getElem?_eq_none (Nat.le_of_not_lt hge)] at hget
    exact Option.noConfusion hget
  have himem : i ∈ sortPerm (t.index.map FDate.year) := by
    rw [sortPerm, (List.perm_insertionSort _ _).mem_iff, List.mem_range,
      List.length_map]
    rw [hlen] at hilt
    exact hilt
  refine List.mem_map.2 ⟨i, himem, ?_⟩
  rw [List.getD_eq_getElem?_getD, hget, Option.getD_some]

lemma yearize_names (t : Wide FDate) :
    (yearize t).cols.map Prod.fst = t.cols.map Prod.fst := by
  rw [yearize, List.map_map]
  rfl

lemma filterMap_map_const_sublist {α β γ : Type} (g : α → Option β) (h : α → γ)
    (l : List α) :
    (l.filterMap (fun p => (g p).map (fun _ => h p))).Sublist (l.map h) := by
  induction l with
  | nil => simp
  | cons a rest ih =>
    rw [List.filterMap_cons, List.map_cons]
    cases g a with
    | none => exact ih.cons _
    | some b => simpa using ih.cons₂ (h a)

lemma load_data_warns {τ : Type} [LinearOrder τ] (src : String → PriceFetch τ)
    (l : List (String × String)) :
    (load_data src l).1 = (load_data_loop src l).2 := by
  simp only [load_data]
  split <;> rfl

lemma warn_of_revenue_failure_any (src : String → RevFetch) :
    ∀ (l : List (String × String)) (n t : String), (n, t) ∈ l →
      okRev (src t) = none →
      ∃ w ∈ (load_revenue_loop src l).2, w.instrument = some n := by
  intro l
  induction l with
  | nil => intro n t h _; simp at h
  | cons p rest ih =>
    intro n t hmem hfail
    have hsub : ∀ w ∈ (load_revenue_loop src rest).2,
        w ∈ (load_revenue_loop src (p :: rest)).2 := by
      intro w hw
      cases hs : src p.2 with
      | raiseErr e => simp [load_revenue_loop, hs, hw]
      | fin ft =>
        cases hA : ft.rows.any (fun row => decide (row.1 = totalRevenueKey)) with
        | false => simp [load_revenue_loop, hs, hA, hw]
        | true =>
          cases hM : (ft.rows.filter (fun row => decide (row.1 = totalRevenueKey))).map
              (fun row => row.2) with
          | nil => simp [load_revenue_loop, hs, hA, hM, hw]
          | cons vals rest2 =>
            cases rest2 with
            | nil =>
              cases hE : ft.dates.isEmpty with
              | true => simp [load_revenue_loop, hs, hA, hM, hE, hw]
              | false => simpa [load_revenue_loop, hs, hA, hM, hE] using hw
            | cons b rest3 => simp [load_revenue_loop, hs, hA, hM, hw]
    rcases List.mem_cons.1 hmem with heq | hrest
    · obtain ⟨rfl, rfl⟩ : n = p.1 ∧ t = p.2 := by
        cases heq
        exact ⟨rfl, rfl⟩
      cases hs : src p.2 with
      | raiseErr e =>
        exact ⟨.fetchError p.1 e, by simp [load_revenue_loop, hs], rfl⟩
      | fin ft =>
        rw [hs] at hfail
        cases hA : ft.rows.any (fun row => decide (row.1 = totalRevenueKey)) with
        | false => exact ⟨.noData p.1, by simp [load_revenue_loop, hs, hA], rfl⟩
        | true =>
          cases hM : (ft.rows.filter (fun row => decide (row.1 = totalRevenueKey))).map
              (fun row => row.2) with
          | nil =>
            exact ⟨.shapeMismatch p.1, by simp [load_revenue_loop, hs, hA, hM], rfl⟩
          | cons vals rest2 =>
            cases rest2 with
            | nil =>
              cases hE : ft.dates.isEmpty with
              | true =>
                exact ⟨.shapeMismatch p.1,
                  by simp [load_revenue_loop, hs, hA, hM, hE], rfl⟩
              | false => simp [okRev, hA, hM, hE] at hfail
            | cons b rest3 =>
              exact ⟨.shapeMismatch p.1, by simp [load_revenue_loop, hs, hA, hM], rfl⟩
    · obtain ⟨w, hw, hwn⟩ := ih n t hrest hfail
      exact ⟨w, hsub w hw, hwn⟩

/-- Whether the success value of a revenue fetch, if any, has a strictly
increasing (hence duplicate-free) fiscal-date index. -/
def wfSortedRev : Option (Series FDate) → Bool
  | none => true
  | some s => decide ((idxOf s).Sorted (· < ·))

/-- C4: per-instrument failures are isolated in both modes.  In price
mode, whenever every successful fetch is a well-formed series, the batch
returns a table (never aborts); every failing instrument is excluded from
the table's columns and gets a warning naming it; and every successfully
fetched series appears in full — the table's cell under that instrument
at each of the series' timestamps is exactly the fetched value.  In
revenue mode likewise: failing instruments are excluded and warned about,
each successful series' observations all appear in the returned column,
and no batch-level `StructuralError` is emitted. -/
theorem per_instrument_failure_isolation
    (srcP : String → PriceFetch ℤ) (instsP : List (String × String))
    (srcR : String → RevFetch) (instsR : List (String × String))
    (hndP : (instsP.map Prod.fst).Nodup) (hndR : (instsR.map Prod.fst).Nodup)
    (hwfP : ∀ p ∈ instsP, wfSortedClose (okClose (srcP p.2)) = true)
    (hwfR : ∀ p ∈ instsR, wfSortedRev (okRev (srcR p.2)) = true) :
    (∃ W, (load_data srcP instsP).2 = Except.ok W ∧
      (∀ p ∈ instsP, okClose (srcP p.2) = none →
        p.1 ∉ W.cols.map Prod.fst ∧
          ∃ w ∈ (load_data srcP instsP).1, w.instrument = some p.1) ∧
      (∀ p ∈ instsP, ∀ s, okClose (srcP p.2) = some (CloseVal.series s) →
        ∀ dv ∈ s, cellAt W p.1 dv.1 = dv.2)) ∧
    ((∀ p ∈ instsR, okRev (srcR p.2) = none →
        p.1 ∉ (load_revenue_data srcR instsR).2.cols.map Prod.fst ∧
          ∃ w ∈ (load_revenue_data srcR instsR).1, w.instrument = some p.1) ∧
      (∀ p ∈ instsR, ∀ s, okRev (srcR p.2) = some s →
        ∃ col, (p.1, col) ∈ (load_revenue_data srcR instsR).2.cols ∧
          ∀ dv ∈ s, dv.2 ∈ col) ∧
      ∀ e, Warning.structuralError e ∉ (load_revenue_data srcR instsR).1) := by
  constructor
  · -- price mode
    have hdata : ∀ q ∈ (load_data_loop srcP instsP).1,
        ∃ s, q.2 = CloseVal.series s ∧ (idxOf s).Sorted (· < ·) := by
      intro q hq
      rw [load_data_loop_fst] at hq
      obtain ⟨p, hp, hq'⟩ := List.mem_filterMap.1 hq
      obtain ⟨cv, hcv, heq⟩ := Option.map_eq_some'.1 hq'
      have hw := hwfP p hp
      rw [hcv] at hw
      cases cv with
      | series s =>
        refine ⟨s, ?_, ?_⟩
        · rw [← heq]
        · exact of_decide_eq_true (by simpa [wfSortedClose] using hw)
      | frame f => simp [wfSortedClose] at hw
    have hdnd : ((load_data_loop srcP instsP).1.map Prod.fst).Nodup := by
      rw [load_data_loop_fst, List.map_filterMap]
      have hsub : (instsP.filterMap (fun p =>
            ((okClose (srcP p.2)).map (fun cv => (p.1, cv))).map Prod.fst)).Sublist
          (instsP.map Prod.fst) := by
        have : (fun p : String × String =>
              ((okClose (srcP p.2)).map (fun cv => (p.1, cv))).map Prod.fst)
            = fun p => (okClose (srcP p.2)).map (fun _ => p.1) := by
          funext p
          rw [Option.map_map]
          rfl
        rw [this]
        exact filterMap_map_const_sublist (fun p => okClose (srcP p.2)) Prod.fst instsP
      exact hsub.nodup hndP
    cases hd : (load_data_loop srcP instsP).1 with
    | nil =>
      refine ⟨{ index := [], cols := [] }, by simp [load_data, hd], ?_, ?_⟩
      · intro p hp hfail
        refine ⟨by simp, ?_⟩
        obtain ⟨w, hw, hwn⟩ :=
          warn_of_price_failure srcP instsP p.1 p.2 (by simpa using hp) hfail
        exact ⟨w, by rw [load_data_warns]; exact hw, hwn⟩
      · intro p hp s hok dv _
        exfalso
        have hm : (p.1, CloseVal.series s) ∈ (load_data_loop srcP instsP).1 := by
          rw [load_data_loop_fst]
          exact List.mem_filterMap.2 ⟨p, hp, by rw [hok]; rfl⟩
        rw [hd] at hm
        simp at hm
    | cons a l =>
      have hwfd : ∀ r ∈ (a :: l).map (fun q => (q.1, asSeries q.2)), (idxOf r.2).Nodup := by
        intro r hr
        obtain ⟨q, hq, rfl⟩ := List.mem_map.1 hr
        obtain ⟨s, hs, hsort⟩ := hdata q (hd ▸ hq)
        have : (idxOf (asSeries q.2)).Sorted (· < ·) := by rw [hs, asSeries]; exact hsort
        exact this.nodup
      have hnf : ((a :: l).any (fun q => isFrame q.2)) = false := by
        rw [List.any_eq_false]
        intro q hq
        obtain ⟨s, hs, _⟩ := hdata q (hd ▸ hq)
        simp [hs, isFrame]
      obtain ⟨W, hW⟩ :=
        mergeSeries_ok_of_nodup ((a :: l).map (fun q => (q.1, asSeries q.2))) hwfd
      have hload2 : (load_data srcP instsP).2 = Except.ok W := by
        simpa [load_data, hd, mergeClose, hnf] using hW
      have hn2 : ((a :: l).map (fun q => (q.1, asSeries q.2))).map Prod.fst
          = (a :: l).map Prod.fst := by
        rw [List.map_map]
        rfl
      refine ⟨W, hload2, ?_, ?_⟩
      · intro p hp hfail
        constructor
        · rw [mergeSeries_names _ W hW, hn2, ← hd]
          exact not_mem_price_data srcP instsP hndP p.1 p.2 (by simpa using hp) hfail
        · obtain ⟨w, hw, hwn⟩ :=
            warn_of_price_failure srcP instsP p.1 p.2 (by simpa using hp) hfail
          exact ⟨w, by rw [load_data_warns]; exact hw, hwn⟩
      · intro p hp s hok dv hdv
        have hmemd : (p.1, CloseVal.series s) ∈ (load_data_loop srcP instsP).1 := by
          rw [load_data_loop_fst]
          exact List.mem_filterMap.2 ⟨p, hp, by rw [hok]; rfl⟩
        have hmems : (p.1, s) ∈ (a :: l).map (fun q => (q.1, asSeries q.2)) :=
          List.mem_map.2 ⟨(p.1, CloseVal.series s), hd ▸ hmemd, rfl⟩
        have hndm : (((a :: l).map (fun q => (q.1, asSeries q.2))).map Prod.fst).Nodup := by
          rw [hn2, ← hd]
          exact hdnd
        exact mergeSeries_cellAt _ W hW hndm hwfd p.1 s hmems dv hdv
  · -- revenue mode
    have hwfd : ∀ r ∈ (load_revenue_loop srcR instsR).1, (idxOf r.2).Nodup := by
      intro r hr
      rw [load_revenue_loop_fst] at hr
      obtain ⟨p, hp, hps⟩ := List.mem_filterMap.1 hr
      obtain ⟨s, hok, heq⟩ := Option.map_eq_some'.1 hps
      have hw := hwfR p hp
      rw [hok] at hw
      have hsort : (idxOf s).Sorted (· < ·) :=
        of_decide_eq_true (by simpa [wfSortedRev] using hw)
      have hr2 : r.2 = s := by rw [← heq]
      rw [hr2]
      exact hsort.nodup
    refine ⟨?_, ?_, ?_⟩
    · intro p hp hfail
      constructor
      · cases hd : (load_revenue_loop srcR instsR).1 with
        | nil => simp [load_revenue_data, hd]
        | cons a l =>
          obtain ⟨W, hW⟩ := mergeSeries_ok_of_nodup (a :: l) (hd ▸ hwfd)
          have hv : (load_revenue_data srcR instsR).2 = yearize W := by
            simp [load_revenue_data, hd, hW]
          rw [hv, yearize_names, mergeSeries_names _ W hW, ← hd]
          exact not_mem_revenue_data srcR instsR hndR p.1 p.2 (by simpa using hp) hfail
      · obtain ⟨w, hw, hwn⟩ :=
          warn_of_revenue_failure_any srcR instsR p.1 p.2 (by simpa using hp) hfail
        refine ⟨w, ?_, hwn⟩
        cases hd : (load_revenue_loop srcR instsR).1 with
        | nil =>
          have : (load_revenue_data srcR instsR).1 = (load_revenue_loop srcR instsR).2 := by
            simp [load_revenue_data, hd]
          rw [this]
          exact hw
        | cons a l =>
          obtain ⟨W, hW⟩ := mergeSeries_ok_of_nodup (a :: l) (hd ▸ hwfd)
          have : (load_revenue_data srcR instsR).1 = (load_revenue_loop srcR instsR).2 := by
            simp [load_revenue_data, hd, hW]
          rw [this]
          exact hw
    · intro p hp s hok
      have hmemd : (p.1, s) ∈ (load_revenue_loop srcR instsR).1 := by
        rw [load_revenue_loop_fst]
        exact List.mem_filterMap.2 ⟨p, hp, by rw [hok]; rfl⟩
      cases hd : (load_revenue_loop srcR instsR).1 with
      | nil => rw [hd] at hmemd; simp at hmemd
      | cons a l =>
        obtain ⟨W, hW⟩ := mergeSeries_ok_of_nodup (a :: l) (hd ▸ hwfd)
        have hv : (load_revenue_data srcR instsR).2 = yearize W := by
          simp [load_revenue_data, hd, hW]
        obtain ⟨col, hcol, hlen, hvals⟩ :=
          mergeSeries_col (a :: l) W hW (hd ▸ hwfd) p.1 s (hd ▸ hmemd)
        obtain ⟨col2, hcol2, hsub⟩ := yearize_col W p.1 col hcol hlen
        refine ⟨col2, by rw [hv]; exact hcol2, ?_⟩
        intro dv hdv
        exact hsub dv.2 (hvals dv hdv)
    · intro e hmem
      have hwarns : (load_revenue_data srcR instsR).1 = (load_revenue_loop srcR instsR).2 := by
        cases hd : (load_revenue_loop srcR instsR).1 with
        | nil => simp [load_revenue_data, hd]
        | cons a l =>
          obtain ⟨W, hW⟩ := mergeSeries_ok_of_nodup (a :: l) (hd ▸ hwfd)
          simp [load_revenue_data, hd, hW]
      rw [hwarns] at hmem
      obtain ⟨m, hm⟩ := revenue_loop_warn_instrument srcR instsR _ hmem
      simp [Warning.instrument] at hm

/-- A revenue-mode source realizing Scenario D: one transport error, one
good two-year series. -/
def srcScenarioDR : String → RevFetch := fun t =>
  if t = "a" then .raiseErr "connection reset"
  else .fin { dates := [⟨2022, 364⟩, ⟨2023, 364⟩]
              rows := [(totalRevenueKey, [some 5, some 7])] }

/-- Witness for C4 at the Scenario-D sources in both modes. -/
theorem per_instrument_failure_isolation_witness :
    (∃ W, (load_data srcScenarioD [("A", "a"), ("B", "b")]).2 = Except.ok W ∧
      (∀ p ∈ [("A", "a"), ("B", "b")], okClose (srcScenarioD p.2) = none →
        p.1 ∉ W.cols.map Prod.fst ∧
          ∃ w ∈ (load_data srcScenarioD [("A", "a"), ("B", "b")]).1,
            w.instrument = some p.1) ∧
      (∀ p ∈ [("A", "a"), ("B", "b")], ∀ s,
        okClose (srcScenarioD p.2) = some (CloseVal.series s) →
        ∀ dv ∈ s, cellAt W p.1 dv.1 = dv.2)) ∧
    ((∀ p ∈ [("A", "a"), ("B", "b")], okRev (srcScenarioDR p.2) = none →
        p.1 ∉ (load_revenue_data srcScenarioDR [("A", "a"), ("B", "b")]).2.cols.map Prod.fst ∧
          ∃ w ∈ (load_revenue_data srcScenarioDR [("A", "a"), ("B", "b")]).1,
            w.instrument = some p.1) ∧
      (∀ p ∈ [("A", "a"), ("B", "b")], ∀ s, okRev (srcScenarioDR p.2) = some s →
        ∃ col, (p.1, col) ∈ (load_revenue_data srcScenarioDR [("A", "a"), ("B", "b")]).2.cols ∧
          ∀ dv ∈ s, dv.2 ∈ col) ∧
      ∀ e, Warning.structuralError e
        ∉ (load_revenue_data srcScenarioDR [("A", "a"), ("B", "b")]).1) :=
  per_instrument_failure_isolation srcScenarioD [("A", "a"), ("B", "b")]
    srcScenarioDR [("A", "a"), ("B", "b")] (by decide) (by decide) (by decide) (by decide)

/-! ### C9: defensive shape detection -/

/-- C9 counterexample: in price mode a multi-column `Close` value passes
the fetch loop undetected — the instrument is stored with the bad value,
not excluded, and no warning at all is recorded. -/
theorem price_shape_passes_through :
    load_data_loop badCloseSrc [("A", "a")]
      = ([("A", CloseVal.frame [[(1, some 10)]])], []) := by
  rfl

/-- C9 amended: in revenue mode the claim holds — an instrument whose
response lacks the `Total Revenue` field, or whose extraction is not a
single nonempty series, is excluded and gets a `NoData` or
`ShapeMismatch` warning.  In price mode an instrument whose fetch fails
(empty download, or a missing `Close` field, whose `KeyError` is caught
as a generic error) is excluded and warned about, but a wrongly-shaped
(multi-column) `Close` value is not detected: it is stored and passed on
to the merge. -/
theorem bad_shape_detection (src : String → RevFetch)
    (l : List (String × String)) (n t : String)
    (hmem : (n, t) ∈ l) (hnd : (l.map Prod.fst).Nodup)
    (ft : FinTable) (hsrc : src t = RevFetch.fin ft)
    (hbad : okRev (src t) = none) :
    (n ∉ (load_revenue_loop src l).1.map Prod.fst ∧
      ∃ w ∈ (load_revenue_loop src l).2,
        w = Warning.noData n ∨ w = Warning.shapeMismatch n) ∧
    ∀ (srcP : String → PriceFetch ℤ) (lP : List (String × String)) (nP tP : String),
      (nP, tP) ∈ lP → (lP.map Prod.fst).Nodup → okClose (srcP tP) = none →
      nP ∉ (load_data_loop srcP lP).1.map Prod.fst ∧
        ∃ w ∈ (load_data_loop srcP lP).2, w.instrument = some nP := by
  constructor
  · exact ⟨not_mem_revenue_data src l hnd n t hmem hbad,
      warn_of_revenue_failure src l n t hmem ⟨ft, hsrc⟩ hbad⟩
  · intro srcP lP nP tP hm hn hf
    exact ⟨not_mem_price_data srcP lP hn nP tP hm hf,
      warn_of_price_failure srcP lP nP tP hm hf⟩

/-- A revenue-mode source answering with two `Total Revenue` rows, so that
`loc` yields a frame rather than a series. -/
def multiRowSrc : String → RevFetch := fun _ =>
  .fin { dates := [⟨2023, 364⟩]
         rows := [(totalRevenueKey, [some 1]), (totalRevenueKey, [some 2])] }

/-- Witness for the amended C9 at a duplicated-row revenue response. -/
theorem bad_shape_detection_witness :
    ("A" ∉ (load_revenue_loop multiRowSrc [("A", "a")]).1.map Prod.fst ∧
      ∃ w ∈ (load_revenue_loop multiRowSrc [("A", "a")]).2,
        w = Warning.noData "A" ∨ w = Warning.shapeMismatch "A") ∧
    ∀ (srcP : String → PriceFetch ℤ) (lP : List (String × String)) (nP tP : String),
      (nP, tP) ∈ lP → (lP.map Prod.fst).Nodup → okClose (srcP tP) = none →
      nP ∉ (load_data_loop srcP lP).1.map Prod.fst ∧
        ∃ w ∈ (load_data_loop srcP lP).2, w.instrument = some nP :=
  bad_shape_detection multiRowSrc [("A", "a")] "A" "a" (by decide) (by decide)
    { dates := [⟨2023, 364⟩]
      rows := [(totalRevenueKey, [some 1]), (totalRevenueKey, [some 2])] }
    (by rfl) (by rfl)

end Yongin
